import Mathlib

/-
  Verification of the Observer Tree Aggregation Engine
  (src/src/components/Observer.ts of the vee-validate repository).

  The TypeScript component is shallowly embedded: JavaScript objects used as
  string-keyed maps become association lists with JS object semantics
  (`alGet` / `alSet` / `alDelete` / `alValues`); Vue instance methods become
  pure state transformers on a `ScopeState` record; the recursive tree-wide
  fan-out operations (`validate`, `setErrors`) are embedded on a recursive
  tree type `OTree`.
-/

set_option autoImplicit false

namespace VeeObserver

universe u v

/-! ## Association lists with JavaScript object semantics

JS objects keep insertion order; assigning to an existing key updates the
value in place (keeping the key's position), assigning a fresh key appends;
`Vue.delete` removes the key.  `Object.values` lists values in key order. -/

/-- First value stored under key `k`, like `obj[k]` (`none` plays `undefined`). -/
def alGet {κ : Type u} {α : Type v} [DecidableEq κ] (l : List (κ × α)) (k : κ) : Option α :=
  match l with
  | [] => none
  | (k', v) :: rest => if k' = k then some v else alGet rest k

/-- JS `obj[k] = v` / object spread override: update in place when the key is
present, append otherwise. -/
def alSet {κ : Type u} {α : Type v} [DecidableEq κ] (l : List (κ × α)) (k : κ) (v : α) :
    List (κ × α) :=
  if (alGet l k).isSome then l.map (fun kv => if kv.1 = k then (k, v) else kv)
  else l ++ [(k, v)]

/-- `Vue.delete obj k`: remove every entry stored under `k`. -/
def alDelete {κ : Type u} {α : Type v} [DecidableEq κ] (l : List (κ × α)) (k : κ) :
    List (κ × α) :=
  l.filter (fun kv => !(kv.1 = k : Bool))

/-- `Object.values`, in insertion order. -/
def alValues {κ : Type u} {α : Type v} (l : List (κ × α)) : List α :=
  l.map Prod.snd


/-! ## Data model -/

/-- The 11 named validation flags (`ValidationFlags` of the source's types). -/
structure ValidationFlags where
  pristine : Bool
  dirty : Bool
  touched : Bool
  untouched : Bool
  valid : Bool
  invalid : Bool
  pending : Bool
  validated : Bool
  changed : Bool
  passed : Bool
  failed : Bool
deriving DecidableEq, Repr

/-- Names of the 11 flags (the `KnownKeys<ValidationFlags>` of the source). -/
inductive FlagName where
  | pristine | dirty | touched | untouched | valid | invalid
  | pending | validated | changed | passed | failed
deriving DecidableEq, Repr

/-- Dynamic field access `flags[flag]`. -/
def ValidationFlags.get (f : ValidationFlags) : FlagName → Bool
  | .pristine => f.pristine
  | .dirty => f.dirty
  | .touched => f.touched
  | .untouched => f.untouched
  | .valid => f.valid
  | .invalid => f.invalid
  | .pending => f.pending
  | .validated => f.validated
  | .changed => f.changed
  | .passed => f.passed
  | .failed => f.failed

/-- The two reduction strategies of `FLAGS_STRATEGIES` (`'every' | 'some'`). -/
inductive Strategy where
  | every
  | some
deriving DecidableEq, Repr

/-- The fixed strategy table `FLAGS_STRATEGIES` (Observer.ts lines 14-26). -/
def FLAGS_STRATEGIES : List (FlagName × Strategy) :=
  [(.pristine, .every),
   (.dirty, .some),
   (.touched, .some),
   (.untouched, .every),
   (.valid, .every),
   (.invalid, .some),
   (.pending, .some),
   (.validated, .every),
   (.changed, .some),
   (.passed, .every),
   (.failed, .some)]

/-- Resolved value of a provider's `validate()` / `validateSilent()` promise
(the source's `ValidationResult`; only the fields the Observer reads). -/
structure ValidationResult where
  valid : Bool
  errors : List String
  failedRules : List (String × List String)
deriving DecidableEq, Repr

/-- Cached snapshot of a departed provider (the source's `InactiveRefCache`). -/
structure InactiveRefCache where
  id : String
  flags : ValidationFlags
  errors : List String
  failedRules : List (String × List String)
deriving DecidableEq, Repr

/-- A registered leaf member (`ProviderInstance`): the surface the Observer
reads — identity, current state, the `disabled` / `persist` props, and the
resolved outcomes its `validate` / `validateSilent` calls produce. -/
structure Provider where
  id : String
  flags : ValidationFlags
  errors : List String
  failedRules : List (String × List String)
  disabled : Bool
  persist : Bool
  validateResult : ValidationResult
  validateSilentResult : ValidationResult
deriving DecidableEq, Repr

/-- Modelled from the spec: `Provider.setFlags` is repository code that is not
under src/ (Provider.ts is absent); per the spec the cached `flags` are
replayed into the incoming member "replacing, not merging". -/
def Provider.setFlags (p : Provider) (f : ValidationFlags) : Provider :=
  { p with flags := f }

/-- Modelled from the spec: `Provider.applyResult` is repository code that is
not under src/ (Provider.ts is absent); per the spec the snapshot's
`errors` / `failedRules` are applied as the member's current result. -/
def Provider.applyResult (p : Provider) (s : InactiveRefCache) : Provider :=
  { p with errors := s.errors, failedRules := s.failedRules }

/-- Modelled from the spec: `Provider.setErrors` is repository code that is
not under src/ (Provider.ts is absent); per the spec the given messages
become the member's current error messages. -/
def Provider.setErrors (p : Provider) (msgs : List String) : Provider :=
  { p with errors := msgs }

/-- Error payload of an aggregate entry.  A provider (or a cached snapshot)
contributes its flat message list; a nested observer contributes its own
aggregate map (`vm.errors` is stored untouched by the recompute, whatever its
shape). -/
inductive Errs where
  | msgs : List String → Errs
  | agg : List (String × Errs) → Errs

/-- Surface of a nested `ValidationObserver` as read by a parent scope:
identity, `disabled` prop, own aggregate errors and flags. -/
structure ObsHandle where
  id : String
  disabled : Bool
  errors : List (String × Errs)
  flags : ValidationFlags

/-- State owned by one `ValidationObserver` instance: the active providers
(`refs`), the persisted snapshots of departed providers (`inactiveRefs`) and
the registered nested observers (`observers`), see `data()` in Observer.ts. -/
structure ScopeState where
  id : String
  refs : List (String × Provider)
  inactiveRefs : List (String × InactiveRefCache)
  observers : List ObsHandle

/-- A subscriber as passed to `subscribe`: a provider (kind `'provider'`) or a
nested observer (kind `'observer'`). -/
inductive Subscriber where
  | provider : Provider → Subscriber
  | observer : ObsHandle → Subscriber

/-! ## Aggregator (the `$watch` recompute, Observer.ts lines 107-126) -/

/-- One element of the recompute's `vms` array: the surface the loop reads
(`vm.id`, `vm.errors`, `vm.flags[flag]`). -/
structure Candidate where
  id : String
  errors : Errs
  flags : ValidationFlags

def Provider.asVm (p : Provider) : Candidate :=
  ⟨p.id, .msgs p.errors, p.flags⟩

def InactiveRefCache.asVm (s : InactiveRefCache) : Candidate :=
  ⟨s.id, .msgs s.errors, s.flags⟩

def ObsHandle.asVm (o : ObsHandle) : Candidate :=
  ⟨o.id, .agg o.errors, o.flags⟩

/-- The candidate array
`[...values(this.refs), ...values(this.inactiveRefs), ...this.observers]`. -/
def ScopeState.vms (st : ScopeState) : List Candidate :=
  (alValues st.refs).map Provider.asVm
    ++ (alValues st.inactiveRefs).map InactiveRefCache.asVm
    ++ st.observers.map ObsHandle.asVm

/-- The error loop `for (...) { errors[vm.id] = vm.errors }`. -/
def recomputeErrors (vms : List Candidate) : List (String × Errs) :=
  vms.foldl (fun errors vm => alSet errors vm.id vm.errors) []

/-- `vms[method](vm => vm.flags[flag])`. -/
def runStrategy : Strategy → List Candidate → FlagName → Bool
  | .every, vms, flag => vms.all (fun vm => vm.flags.get flag)
  | .some, vms, flag => vms.any (fun vm => vm.flags.get flag)

/-- The flag loop
`FLAGS_STRATEGIES.forEach(([flag, method]) => { flags[flag] = vms[method](...) })`. -/
def recomputeFlags (vms : List Candidate) : List (FlagName × Bool) :=
  FLAGS_STRATEGIES.map (fun fs => (fs.1, runStrategy fs.2 vms fs.1))

/-! ## Registry and persistence cache (Observer.ts methods) -/

/-- `restoreProviderState` (lines 184-194): when a cached snapshot exists for
the incoming provider's id, replay its flags (`setFlags`), apply its result
(`applyResult`) and delete the cache entry.  The source mutates the provider
object in place; the pure embedding returns the updated state together with
the updated provider. -/
def ScopeState.restoreProviderState (st : ScopeState) (provider : Provider) :
    ScopeState × Provider :=
  match alGet st.inactiveRefs provider.id with
  | none => (st, provider)
  | some state =>
      let provider := (provider.setFlags state.flags).applyResult state
      ({ st with inactiveRefs := alDelete st.inactiveRefs provider.id }, provider)

/-- `subscribe` (lines 137-147).  The source's `kind` parameter defaults to
`'provider'`; callers of the embedding pass it explicitly.  In the source the
subscriber is stored in `refs` first and `restoreProviderState` then mutates
the stored object through the shared reference; the embedding writes the
restored provider back under its id. -/
def ScopeState.subscribe (st : ScopeState) (subscriber : Subscriber) (kind : String) :
    ScopeState :=
  if kind = "observer" then
    match subscriber with
    | .observer o => { st with observers := st.observers ++ [o] }
    | .provider _ => st
  else
    match subscriber with
    | .observer _ => st
    | .provider p =>
        let st := { st with refs := alSet st.refs p.id p }
        if p.persist then
          let (st', p') := st.restoreProviderState p
          { st' with refs := alSet st'.refs p.id p' }
        else st

/-- `removeProvider` (lines 195-222): unknown ids are a silent no-op (the
source's FIXME notes that inactive refs are not cleaned up there); a departing
provider with `persist` is snapshotted into `inactiveRefs` before its `refs`
entry is deleted. -/
def ScopeState.removeProvider (st : ScopeState) (id : String) : ScopeState :=
  match alGet st.refs id with
  | none => st
  | some provider =>
      let st :=
        if provider.persist then
          { st with
            inactiveRefs :=
              alSet st.inactiveRefs id
                ⟨id, provider.flags, provider.errors, provider.failedRules⟩ }
        else st
      { st with refs := alDelete st.refs id }

/-- `unsubscribe` (lines 148-158): providers go through `removeProvider`;
observers are removed by `findIndex` + `splice(idx, 1)`. -/
def ScopeState.unsubscribe (st : ScopeState) (id : String) (kind : String) : ScopeState :=
  if kind = "provider" then st.removeProvider id
  else
    match st.observers.findIdx? (fun o => o.id = id) with
    | some idx => { st with observers := st.observers.eraseIdx idx }
    | none => st

/-- Events observable while `reset` runs: a cache entry deletion or a
member-level `reset()` call. -/
inductive ResetEvent where
  | cacheDelete : String → ResetEvent
  | memberReset : String → ResetEvent
deriving DecidableEq, Repr

/-- `reset` (lines 177-183): `Object.keys(this.inactiveRefs)` is snapshotted,
each key is deleted from the cache, then `reset()` is called on every active
provider and nested observer.  The returned trace records the performed
actions in order; the `Unit` component is the method's return value (a
`forEach` result, i.e. no aggregated value). -/
def ScopeState.reset (st : ScopeState) : ScopeState × List ResetEvent × Unit :=
  let keys := st.inactiveRefs.map Prod.fst
  let cleared :=
    keys.foldl
      (fun (acc : List (String × InactiveRefCache) × List ResetEvent) key =>
        (alDelete acc.1 key, acc.2 ++ [ResetEvent.cacheDelete key]))
      (st.inactiveRefs, [])
  let targets :=
    ((alValues st.refs).map (fun r => r.id)) ++ (st.observers.map (fun o => o.id))
  ({ st with inactiveRefs := cleared.1 },
   cleared.2 ++ targets.map ResetEvent.memberReset, ())

/-- One call in a `subscribe` / `unsubscribe` sequence. -/
inductive RegOp where
  | sub : Subscriber → String → RegOp
  | unsub : String → String → RegOp

def applyOp (st : ScopeState) : RegOp → ScopeState
  | .sub s kind => st.subscribe s kind
  | .unsub id kind => st.unsubscribe id kind

def applyOps (st : ScopeState) (ops : List RegOp) : ScopeState :=
  ops.foldl applyOp st

/-- Disjointness of the two registry partitions: no id is simultaneously
active and cached. -/
def disjointPartitions (st : ScopeState) : Prop :=
  ∀ id, (alGet st.refs id).isSome = true → (alGet st.inactiveRefs id).isNone = true

/-! ## The observer tree (for the recursive fan-out operations) -/

/-- A `ValidationObserver` with its registered providers and nested observers,
as traversed by the recursive tree-wide operations `validate` / `setErrors`. -/
inductive OTree where
  | mk (id : String) (disabled : Bool)
      (refs : List (String × Provider))
      (observers : List OTree)

def OTree.id : OTree → String
  | .mk i _ _ _ => i

def OTree.disabled : OTree → Bool
  | .mk _ d _ _ => d

def OTree.refs : OTree → List (String × Provider)
  | .mk _ _ r _ => r

def OTree.observers : OTree → List OTree
  | .mk _ _ _ o => o

/-- `validate` (lines 159-168): fan out to every non-disabled provider
(taking `validateSilent`'s outcome when `silent`, else `validate`'s, reduced
to its `valid` boolean) and recursively to every non-disabled nested
observer, then `results.every(r => r)`. -/
def OTree.validate (silent : Bool) : OTree → Bool
  | .mk _ _ refs observers =>
      let providerResults :=
        ((alValues refs).filter (fun r => !r.disabled)).map
          (fun r => (if silent then r.validateSilentResult else r.validateResult).valid)
      let observerResults :=
        (observers.attach.filter (fun o => !o.1.disabled)).map
          (fun o => OTree.validate silent o.1)
      (providerResults ++ observerResults).all (fun r => r)
termination_by t => sizeOf t
decreasing_by
  have h1 := List.sizeOf_lt_of_mem o.2
  simp only [OTree.mk.sizeOf_spec]
  omega

/-- One step of the `setErrors` key loop (lines 224-229): look the input key
up in `refs`; a missing provider is skipped (`if (!provider) return`),
otherwise the provider receives the messages stored under that key.  (The
source's `errors[key] || []` fallback is vacuous here: a present key always
holds a message list.) -/
def setErrorsStep (acc : List (String × Provider)) (kv : String × List String) :
    List (String × Provider) :=
  match alGet acc kv.1 with
  | none => acc
  | some provider => alSet acc kv.1 (provider.setErrors kv.2)

/-- `setErrors` (lines 223-234): each input id with a matching active provider
forwards its messages to that provider; missing ids are skipped; the entire
input map is forwarded unchanged to every nested observer. -/
def OTree.setErrors (errors : List (String × List String)) : OTree → OTree
  | .mk i d refs observers =>
      .mk i d (errors.foldl setErrorsStep refs)
        (observers.attach.map (fun o => OTree.setErrors errors o.1))
termination_by t => sizeOf t
decreasing_by
  have h1 := List.sizeOf_lt_of_mem o.2
  simp only [OTree.mk.sizeOf_spec]
  omega

/-! ## Default id generation (`vid` prop default, Observer.ts lines 82-87)

The source evaluates `` `obs_${OBSERVER_COUNTER++}` `` against a module-level
counter, so the n-th generated id is `"obs_"` followed by the decimal
rendering of n.  Decimal rendering is embedded explicitly so that its
injectivity can be established. -/

/-- Decimal digits of `n`, least significant first, with `fuel` bounding the
recursion depth (`fuel ≥ n` makes the fallback branch unreachable). -/
def digitsGo : Nat → Nat → List Nat
  | 0, n => [n % 10]
  | fuel + 1, n => if n < 10 then [n] else n % 10 :: digitsGo fuel (n / 10)

def natDigits (n : Nat) : List Nat :=
  digitsGo n n

/-- Value denoted by a little-endian digit list. -/
def unDigits : List Nat → Nat
  | [] => 0
  | d :: ds => d + 10 * unDigits ds

/-- Character for one decimal digit. -/
def digChar (d : Nat) : Char :=
  Char.ofNat (48 + d)

/-- Decimal rendering of a counter value, as JS `${n}` produces. -/
def natRepr (n : Nat) : String :=
  ⟨(natDigits n).reverse.map digChar⟩

/-- The generated default id for counter value `c`: `` `obs_${c}` ``. -/
def defaultVid (c : Nat) : String :=
  "obs_" ++ natRepr c

/-! ## Concrete fixtures used by witnesses and counterexamples -/

/-- All-false flags record used to build concrete members for the witnesses. -/
def flagsW : ValidationFlags :=
  ⟨false, false, false, false, false, false, false, false, false, false, false⟩

/-- A second concrete flags record, distinct from `flagsW`. -/
def flagsW2 : ValidationFlags :=
  ⟨true, false, false, true, true, false, false, false, false, false, false⟩

def resultW : ValidationResult := ⟨true, [], []⟩

def provW : Provider := ⟨"a", flagsW, ["msg"], [], false, false, resultW, resultW⟩

def snapW : InactiveRefCache := ⟨"s", flagsW, ["old"], []⟩

def obsHandleW : ObsHandle := ⟨"o", false, [], flagsW⟩

def stW : ScopeState := ⟨"obs_9", [("a", provW)], [("s", snapW)], [obsHandleW]⟩

def treeW : OTree := .mk "o1" false [] []

def provW2 : Provider := ⟨"a", flagsW, [], [], false, false, resultW, resultW⟩

def treeW2 : OTree := .mk "o2" false [("a", provW2)] []

def errsW : List (String × List String) := [("a", ["bad"]), ("zz", ["x"])]

def provW3 : Provider := ⟨"b", flagsW, [], [], false, true, resultW, resultW⟩

def snapA : InactiveRefCache := ⟨"a", flagsW2, ["cached"], [("req", ["r"])]⟩

def stC4 : ScopeState := ⟨"obs_2", [], [("a", snapA)], []⟩

def provNoPersist : Provider := ⟨"a", flagsW, [], [], false, false, resultW, resultW⟩

def provM : Provider := ⟨"m", flagsW2, ["kept"], [("req", ["msg"])], false, true, resultW, resultW⟩

def provN : Provider := ⟨"m", flagsW, [], [], false, true, resultW, resultW⟩

def emptyScope : ScopeState := ⟨"obs_0", [], [], []⟩

def provPersistA : Provider := ⟨"a", flagsW, ["e1"], [], false, true, resultW, resultW⟩

def opsC5 : List RegOp :=
  [.sub (.provider provPersistA) "provider",
   .unsub "a" "provider",
   .sub (.provider provNoPersist) "provider"]

/-- The operations under which the amended C5 holds: every subscribed
provider carries `persist = true`. -/
def subscribedPersist : RegOp → Prop
  | .sub (.provider p) _ => p.persist = true
  | _ => True

def opsW5 : List RegOp :=
  [.sub (.provider provPersistA) "provider",
   .unsub "a" "provider",
   .sub (.provider provPersistA) "provider"]

/-! ## Association-list lemmas -/

section AListLemmas

variable {κ : Type u} {α : Type v} [DecidableEq κ]

theorem alGet_nil (k : κ) : alGet ([] : List (κ × α)) k = none := rfl

theorem alGet_cons (k' : κ) (v : α) (rest : List (κ × α)) (k : κ) :
    alGet ((k', v) :: rest) k = if k' = k then some v else alGet rest k := rfl

theorem alGet_append (l₁ l₂ : List (κ × α)) (k : κ) :
    alGet (l₁ ++ l₂) k = ((alGet l₁ k).or (alGet l₂ k)) := by
  induction l₁ with
  | nil => simp [alGet]
  | cons kv rest ih =>
    obtain ⟨k', v⟩ := kv
    by_cases h : k' = k <;> simp [alGet_cons, h, ih]

theorem alGet_eq_none_iff (l : List (κ × α)) (k : κ) :
    alGet l k = none ↔ ∀ kv ∈ l, kv.1 ≠ k := by
  induction l with
  | nil => simp [alGet]
  | cons kv rest ih =>
    obtain ⟨k', v⟩ := kv
    by_cases h : k' = k <;> simp [alGet_cons, h, ih]

theorem alGet_map_update (l : List (κ × α)) (k : κ) (v : α) :
    alGet (l.map (fun kv => if kv.1 = k then (k, v) else kv)) k =
      (alGet l k).map (fun _ => v) := by
  induction l with
  | nil => simp [alGet]
  | cons kv rest ih =>
    obtain ⟨k', v'⟩ := kv
    by_cases h : k' = k
    · subst h; simp [alGet_cons, ih]
    · simp [alGet_cons, h, ih]

theorem alGet_alSet_self (l : List (κ × α)) (k : κ) (v : α) :
    alGet (alSet l k v) k = some v := by
  unfold alSet
  by_cases h : (alGet l k).isSome
  · simp only [h, if_true, alGet_map_update]
    obtain ⟨w, hw⟩ := Option.isSome_iff_exists.mp h
    simp [hw]
  · simp only [h]
    rw [if_neg (by simp [h]), alGet_append]
    have hnone : alGet l k = none := by
      cases hh : alGet l k
      · rfl
      · exact absurd (by simp [hh]) h
    simp [hnone, alGet]

theorem alGet_map_update_other (l : List (κ × α)) (k k' : κ) (v : α) (h : k' ≠ k) :
    alGet (l.map (fun kv => if kv.1 = k then (k, v) else kv)) k' = alGet l k' := by
  induction l with
  | nil => rfl
  | cons kv rest ih =>
    obtain ⟨k₀, v₀⟩ := kv
    have hkk' : ¬(k = k') := fun hh => h hh.symm
    by_cases h₀ : k₀ = k
    · subst h₀
      simp [alGet_cons, hkk', ih]
    · by_cases h₁ : k₀ = k' <;> simp [alGet_cons, h₀, h₁, h, ih]

theorem alGet_alSet_other (l : List (κ × α)) (k k' : κ) (v : α) (h : k' ≠ k) :
    alGet (alSet l k v) k' = alGet l k' := by
  unfold alSet
  by_cases hs : (alGet l k).isSome
  · rw [if_pos hs, alGet_map_update_other l k k' v h]
  · rw [if_neg hs, alGet_append]
    simp [alGet, Ne.symm h]

theorem alGet_alDelete_self (l : List (κ × α)) (k : κ) :
    alGet (alDelete l k) k = none := by
  rw [alGet_eq_none_iff]
  intro kv hkv
  have := List.of_mem_filter hkv
  simpa using this

theorem alGet_alDelete_other (l : List (κ × α)) (k k' : κ) (h : k' ≠ k) :
    alGet (alDelete l k) k' = alGet l k' := by
  induction l with
  | nil => rfl
  | cons kv rest ih =>
    obtain ⟨k₀, v₀⟩ := kv
    by_cases h₀ : k₀ = k
    · subst h₀
      have : alDelete ((k₀, v₀) :: rest) k₀ = alDelete rest k₀ := by
        simp [alDelete]
      rw [this, ih, alGet_cons, if_neg (fun hh => h hh.symm)]
    · have : alDelete ((k₀, v₀) :: rest) k = (k₀, v₀) :: alDelete rest k := by
        simp [alDelete, h₀]
      rw [this, alGet_cons, alGet_cons]
      by_cases h₁ : k₀ = k' <;> simp [h₁, ih]

theorem alSet_of_get_isSome (l : List (κ × α)) (k : κ) (v : α)
    (h : (alGet l k).isSome) :
    alSet l k v = l.map (fun kv => if kv.1 = k then (k, v) else kv) := by
  unfold alSet
  rw [if_pos h]

theorem map_update_id (l : List (κ × α)) (k : κ) (v : α)
    (h : ∀ kv ∈ l, kv.1 = k → kv = (k, v)) :
    l.map (fun kv => if kv.1 = k then (k, v) else kv) = l := by
  induction l with
  | nil => rfl
  | cons kv rest ih =>
    simp only [List.map_cons]
    rw [ih (fun kv' h' hk => h kv' (List.mem_cons_of_mem _ h') hk)]
    by_cases hk : kv.1 = k
    · rw [if_pos hk, h kv (List.mem_cons_self _ _) hk]
    · rw [if_neg hk]

theorem mem_alSet_key (l : List (κ × α)) (k : κ) (v : α) :
    ∀ kv ∈ alSet l k v, kv.1 = k → kv = (k, v) := by
  intro kv hkv hk
  unfold alSet at hkv
  by_cases hs : (alGet l k).isSome
  · rw [if_pos hs] at hkv
    obtain ⟨kv₀, hkv₀, heq⟩ := List.mem_map.mp hkv
    by_cases h₀ : kv₀.1 = k
    · rw [if_pos h₀] at heq
      exact heq.symm
    · rw [if_neg h₀] at heq
      subst heq
      exact absurd hk h₀
  · rw [if_neg hs] at hkv
    rcases List.mem_append.mp hkv with h₁ | h₁
    · have hnone : alGet l k = none := Option.not_isSome_iff_eq_none.mp hs
      exact absurd hk ((alGet_eq_none_iff l k).mp hnone kv h₁)
    · simpa using h₁

theorem alSet_alSet_same (l : List (κ × α)) (k : κ) (v : α) :
    alSet (alSet l k v) k v = alSet l k v := by
  rw [alSet_of_get_isSome _ _ _ (by rw [alGet_alSet_self]; rfl),
    map_update_id _ _ _ (mem_alSet_key l k v)]

theorem mem_alDelete {l : List (κ × α)} {k : κ} {kv : κ × α}
    (h : kv ∈ alDelete l k) : kv ∈ l ∧ kv.1 ≠ k := by
  have h' : kv ∈ l.filter (fun kv => !(kv.1 = k : Bool)) := h
  refine ⟨List.mem_of_mem_filter h', ?_⟩
  have h1 := List.of_mem_filter h'
  simpa using h1

end AListLemmas

/-! ## Unfolding the recursive tree operations -/

theorem attach_filter_map_eq {α β : Type} (l : List α) (p : α → Bool) (f : α → β) :
    (l.attach.filter (fun x => p x.1)).map (fun x => f x.1) = (l.filter p).map f := by
  have h1 : (l.attach.filter (fun x => p x.1)).map (fun x => f x.1)
      = ((l.attach.filter (fun x => p x.1)).map Subtype.val).map f := by
    rw [List.map_map]
    rfl
  have h2 : l.attach.filter (fun x => p x.1)
      = l.attach.filter (p ∘ Subtype.val) := rfl
  have h3 : (l.attach.map Subtype.val).filter p
      = (l.attach.filter (p ∘ Subtype.val)).map Subtype.val := List.filter_map _ _
  rw [h1, h2, ← h3, List.attach_map_subtype_val]

theorem OTree.validate_mk (silent : Bool) (i : String) (d : Bool)
    (refs : List (String × Provider)) (observers : List OTree) :
    OTree.validate silent (.mk i d refs observers) =
      (((alValues refs).filter (fun r => !r.disabled)).map
          (fun r => (if silent then r.validateSilentResult else r.validateResult).valid)
        ++ (observers.filter (fun o => !o.disabled)).map (OTree.validate silent)).all
        (fun r => r) := by
  rw [OTree.validate]
  rw [attach_filter_map_eq observers (fun o => !o.disabled) (OTree.validate silent)]

theorem OTree.setErrors_mk (errors : List (String × List String)) (i : String) (d : Bool)
    (refs : List (String × Provider)) (observers : List OTree) :
    OTree.setErrors errors (.mk i d refs observers) =
      .mk i d (errors.foldl setErrorsStep refs)
        (observers.map (OTree.setErrors errors)) := by
  rw [OTree.setErrors]
  rw [List.attach_map_val observers (OTree.setErrors errors)]

/-! ## Lemmas about the `setErrors` fold -/

theorem setErrorsStep_get_other (acc : List (String × Provider))
    (kv : String × List String) (k : String) (h : k ≠ kv.1) :
    alGet (setErrorsStep acc kv) k = alGet acc k := by
  unfold setErrorsStep
  cases hg : alGet acc kv.1 with
  | none => rfl
  | some p => exact alGet_alSet_other acc kv.1 k (p.setErrors kv.2) h

theorem setErrors_foldl_not_mem (errors : List (String × List String))
    (acc : List (String × Provider)) (k : String) (h : alGet errors k = none) :
    alGet (errors.foldl setErrorsStep acc) k = alGet acc k := by
  induction errors generalizing acc with
  | nil => rfl
  | cons kv rest ih =>
    rw [alGet_cons] at h
    by_cases hk : kv.1 = k
    · rw [if_pos hk] at h
      cases h
    · rw [if_neg hk] at h
      rw [List.foldl_cons, ih _ h, setErrorsStep_get_other _ _ _ (fun hh => hk hh.symm)]

theorem setErrors_foldl_none (errors : List (String × List String))
    (acc : List (String × Provider)) (k : String) (h : alGet acc k = none) :
    alGet (errors.foldl setErrorsStep acc) k = none := by
  induction errors generalizing acc with
  | nil => exact h
  | cons kv rest ih =>
    rw [List.foldl_cons]
    apply ih
    unfold setErrorsStep
    cases hg : alGet acc kv.1 with
    | none => exact h
    | some p =>
        by_cases hk : k = kv.1
        · subst hk
          rw [h] at hg
          cases hg
        · rw [alGet_alSet_other acc kv.1 k (p.setErrors kv.2) hk]
          exact h

theorem setErrors_foldl_of_mem (errors : List (String × List String))
    (acc : List (String × Provider)) (k : String) (v : List String) (p : Provider)
    (hnd : (errors.map Prod.fst).Nodup)
    (he : alGet errors k = some v) (ha : alGet acc k = some p) :
    alGet (errors.foldl setErrorsStep acc) k = some (p.setErrors v) := by
  induction errors generalizing acc with
  | nil => cases he
  | cons kv rest ih =>
    simp only [List.map_cons, List.nodup_cons] at hnd
    rw [alGet_cons] at he
    rw [List.foldl_cons]
    by_cases hk : kv.1 = k
    · rw [if_pos hk] at he
      cases he
      subst hk
      have hrest : alGet rest kv.1 = none := by
        rw [alGet_eq_none_iff]
        intro kv' hkv' hc
        exact hnd.1 (hc ▸ List.mem_map_of_mem Prod.fst hkv')
      rw [setErrors_foldl_not_mem rest _ kv.1 hrest]
      unfold setErrorsStep
      rw [ha, alGet_alSet_self]
    · rw [if_neg hk] at he
      apply ih _ hnd.2 he
      rw [setErrorsStep_get_other _ _ _ (fun hh => hk hh.symm)]
      exact ha

/-! ## Lemmas about the error-map fold -/

theorem alGet_foldl_alSet_not_mem (vms : List Candidate) (acc : List (String × Errs))
    (id : String) (h : id ∉ vms.map Candidate.id) :
    alGet (vms.foldl (fun errors vm => alSet errors vm.id vm.errors) acc) id =
      alGet acc id := by
  induction vms generalizing acc with
  | nil => rfl
  | cons vm rest ih =>
    simp only [List.map_cons, List.mem_cons, not_or] at h
    rw [List.foldl_cons, ih _ h.2]
    exact alGet_alSet_other acc vm.id id vm.errors h.1

theorem alGet_foldl_alSet_of_mem (vms : List Candidate) (acc : List (String × Errs))
    (hnd : (vms.map Candidate.id).Nodup) :
    ∀ vm ∈ vms, alGet (vms.foldl (fun errors vm => alSet errors vm.id vm.errors) acc) vm.id =
      some vm.errors := by
  induction vms generalizing acc with
  | nil => intro vm hvm; cases hvm
  | cons vm₀ rest ih =>
    simp only [List.map_cons, List.nodup_cons] at hnd
    intro vm hvm
    rcases List.mem_cons.mp hvm with h | h
    · subst h
      rw [List.foldl_cons, alGet_foldl_alSet_not_mem rest _ vm.id hnd.1,
        alGet_alSet_self]
    · exact ih _ hnd.2 vm h

/-! ## Claim theorems -/

/-- C1: the recompute assigns each of the 11 aggregate flags by the fixed
strategy table — `pristine`, `untouched`, `valid`, `validated`, `passed` are
the `every` (AND) of that flag over all candidates, and `dirty`, `touched`,
`invalid`, `pending`, `changed`, `failed` are the `some` (OR); in particular
the aggregate `valid` is `true` iff every candidate's `flags.valid` is `true`
and the aggregate `invalid` is `true` iff some candidate's `flags.invalid`
is `true`. -/
theorem aggregateFlags_strategy_table (st : ScopeState) :
    alGet (recomputeFlags st.vms) .pristine
        = some (st.vms.all (fun vm => vm.flags.pristine))
    ∧ alGet (recomputeFlags st.vms) .dirty
        = some (st.vms.any (fun vm => vm.flags.dirty))
    ∧ alGet (recomputeFlags st.vms) .touched
        = some (st.vms.any (fun vm => vm.flags.touched))
    ∧ alGet (recomputeFlags st.vms) .untouched
        = some (st.vms.all (fun vm => vm.flags.untouched))
    ∧ alGet (recomputeFlags st.vms) .valid
        = some (st.vms.all (fun vm => vm.flags.valid))
    ∧ alGet (recomputeFlags st.vms) .invalid
        = some (st.vms.any (fun vm => vm.flags.invalid))
    ∧ alGet (recomputeFlags st.vms) .pending
        = some (st.vms.any (fun vm => vm.flags.pending))
    ∧ alGet (recomputeFlags st.vms) .validated
        = some (st.vms.all (fun vm => vm.flags.validated))
    ∧ alGet (recomputeFlags st.vms) .changed
        = some (st.vms.any (fun vm => vm.flags.changed))
    ∧ alGet (recomputeFlags st.vms) .passed
        = some (st.vms.all (fun vm => vm.flags.passed))
    ∧ alGet (recomputeFlags st.vms) .failed
        = some (st.vms.any (fun vm => vm.flags.failed))
    ∧ (alGet (recomputeFlags st.vms) .valid = some true
        ↔ ∀ vm ∈ st.vms, vm.flags.valid = true)
    ∧ (alGet (recomputeFlags st.vms) .invalid = some true
        ↔ ∃ vm ∈ st.vms, vm.flags.invalid = true) :=
  ⟨rfl, rfl, rfl, rfl, rfl, rfl, rfl, rfl, rfl, rfl, rfl,
   by have h : alGet (recomputeFlags st.vms) .valid
          = some (st.vms.all (fun vm => vm.flags.valid)) := rfl
      rw [h]
      constructor
      · intro hh
        intro vm hvm
        exact List.all_eq_true.mp (Option.some.inj hh) vm hvm
      · intro hh
        exact congrArg some (List.all_eq_true.mpr hh),
   by have h : alGet (recomputeFlags st.vms) .invalid
          = some (st.vms.any (fun vm => vm.flags.invalid)) := rfl
      rw [h]
      simp [List.any_eq_true]⟩

/-- C2: the recompute's candidate set is exactly the active providers, the
cached snapshots and the nested observers, and (for candidates with distinct
ids) the recomputed aggregate errors map each candidate's id to that
candidate's full error payload — cached snapshots included. -/
theorem aggregateErrors_candidates (st : ScopeState)
    (hnd : (st.vms.map Candidate.id).Nodup) :
    (∀ vm, vm ∈ st.vms ↔
        ((∃ p ∈ alValues st.refs, vm = p.asVm)
          ∨ (∃ s ∈ alValues st.inactiveRefs, vm = s.asVm)
          ∨ (∃ o ∈ st.observers, vm = o.asVm)))
    ∧ (∀ vm ∈ st.vms, alGet (recomputeErrors st.vms) vm.id = some vm.errors) := by
  constructor
  · intro vm
    simp only [ScopeState.vms, List.mem_append, List.mem_map]
    constructor
    · rintro ((⟨p, hp, rfl⟩ | ⟨s, hs, rfl⟩) | ⟨o, ho, rfl⟩)
      · exact Or.inl ⟨p, hp, rfl⟩
      · exact Or.inr (Or.inl ⟨s, hs, rfl⟩)
      · exact Or.inr (Or.inr ⟨o, ho, rfl⟩)
    · rintro (⟨p, hp, rfl⟩ | ⟨s, hs, rfl⟩ | ⟨o, ho, rfl⟩)
      · exact Or.inl (Or.inl ⟨p, hp, rfl⟩)
      · exact Or.inl (Or.inr ⟨s, hs, rfl⟩)
      · exact Or.inr ⟨o, ho, rfl⟩
  · exact alGet_foldl_alSet_of_mem st.vms [] hnd


/-- Witness for C2 at a scope holding one active provider, one cached
snapshot and one nested observer with pairwise distinct ids. -/
theorem aggregateErrors_candidates_witness :
    (stW.vms.map Candidate.id).Nodup
    ∧ (∀ vm ∈ stW.vms, alGet (recomputeErrors stW.vms) vm.id = some vm.errors) :=
  ⟨by decide, (aggregateErrors_candidates stW (by decide)).2⟩

/-- C3: `validate({silent})` resolves to `true` iff every non-disabled active
provider's fanned-out outcome (`validateSilent` when silent, `validate`
otherwise, reduced to its `valid` boolean) is truthy and every non-disabled
nested observer recursively validates to `true`; a scope with zero eligible
members validates to `true`. -/
theorem validate_fanout (t : OTree) (silent : Bool) :
    (OTree.validate silent t = true ↔
      ((∀ r ∈ (alValues t.refs).filter (fun r => !r.disabled),
          (if silent then r.validateSilentResult else r.validateResult).valid = true)
        ∧ (∀ c ∈ t.observers.filter (fun o => !o.disabled),
            OTree.validate silent c = true)))
    ∧ (((alValues t.refs).filter (fun r => !r.disabled) = []
          ∧ t.observers.filter (fun o => !o.disabled) = [])
        → OTree.validate silent t = true) := by
  obtain ⟨i, d, refs, observers⟩ := t
  simp only [OTree.refs, OTree.observers]
  constructor
  · rw [OTree.validate_mk]
    simp only [List.all_append, Bool.and_eq_true, List.all_eq_true, List.mem_map]
    constructor
    · rintro ⟨h1, h2⟩
      exact ⟨fun r hr => h1 _ ⟨r, hr, rfl⟩, fun c hc => h2 _ ⟨c, hc, rfl⟩⟩
    · rintro ⟨h1, h2⟩
      exact ⟨fun b ⟨r, hr, hb⟩ => hb ▸ h1 r hr, fun b ⟨c, hc, hb⟩ => hb ▸ h2 c hc⟩
  · rintro ⟨h1, h2⟩
    rw [OTree.validate_mk, h1, h2]
    rfl


/-- Witness for C3's vacuous-truth clause at a scope with no members. -/
theorem validate_fanout_witness :
    OTree.validate false treeW = true :=
  (validate_fanout treeW false).2 ⟨rfl, rfl⟩

/-- C7: `setErrors(errorsById)` forwards `errorsById[id]` to each active
provider whose id is an input key, silently ignores input ids with no
matching active provider (no entry appears for them), leaves providers whose
id is not an input key untouched, and forwards the entire map unchanged to
every nested observer. -/
theorem setErrors_forwarding (errors : List (String × List String)) (t : OTree)
    (hnd : (errors.map Prod.fst).Nodup) :
    (∀ k v p, alGet errors k = some v → alGet t.refs k = some p →
        alGet (OTree.setErrors errors t).refs k = some (p.setErrors v))
    ∧ (∀ k, alGet t.refs k = none → alGet (OTree.setErrors errors t).refs k = none)
    ∧ (∀ k, alGet errors k = none →
        alGet (OTree.setErrors errors t).refs k = alGet t.refs k)
    ∧ (OTree.setErrors errors t).observers = t.observers.map (OTree.setErrors errors) := by
  obtain ⟨i, d, refs, observers⟩ := t
  rw [OTree.setErrors_mk]
  simp only [OTree.refs, OTree.observers]
  exact ⟨fun k v p he ha => setErrors_foldl_of_mem errors refs k v p hnd he ha,
    fun k h => setErrors_foldl_none errors refs k h,
    fun k h => setErrors_foldl_not_mem errors refs k h,
    trivial⟩


/-- Witness for C7: the member `a` receives its entry, the unmatched id `zz`
stays absent. -/
theorem setErrors_forwarding_witness :
    (errsW.map Prod.fst).Nodup
    ∧ alGet (OTree.setErrors errsW treeW2).refs "a" = some (provW2.setErrors ["bad"])
    ∧ alGet (OTree.setErrors errsW treeW2).refs "zz" = none :=
  ⟨by decide,
   (setErrors_forwarding errsW treeW2 (by decide)).1 "a" ["bad"] provW2 rfl rfl,
   (setErrors_forwarding errsW treeW2 (by decide)).2.1 "zz" rfl⟩

theorem foldl_alDelete_all {α : Type v} (ks : List String)
    (m : List (String × α)) (tr : List ResetEvent)
    (h : ∀ kv ∈ m, kv.1 ∈ ks) :
    ks.foldl
        (fun (acc : List (String × α) × List ResetEvent) key =>
          (alDelete acc.1 key, acc.2 ++ [ResetEvent.cacheDelete key]))
        (m, tr)
      = ([], tr ++ ks.map ResetEvent.cacheDelete) := by
  induction ks generalizing m tr with
  | nil =>
    cases m with
    | nil => simp
    | cons kv rest => exact absurd (h kv (List.mem_cons_self _ _)) (List.not_mem_nil _)
  | cons k rest ih =>
    rw [List.foldl_cons]
    rw [ih (alDelete m k) (tr ++ [ResetEvent.cacheDelete k]) ?_]
    · simp
    · intro kv hkv
      obtain ⟨h2, h1⟩ := mem_alDelete hkv
      rcases List.mem_cons.mp (h kv h2) with hc | hc
      · exact absurd hc h1
      · exact hc

/-- C6: `reset()` deletes every entry of `inactiveRefs` (all cache deletions
precede all member `reset()` calls in the trace), then calls `reset()` on
every active provider and every nested observer, and hands no aggregated
value back to the caller.  Membership itself (`refs`, `observers`) is
untouched. -/
theorem reset_clears_cache_then_resets (st : ScopeState) :
    (st.reset).1.inactiveRefs = []
    ∧ (st.reset).1.refs = st.refs
    ∧ (st.reset).1.observers = st.observers
    ∧ (st.reset).2.1 =
        (st.inactiveRefs.map (fun kv => ResetEvent.cacheDelete kv.1))
          ++ (((alValues st.refs).map (fun r => r.id))
              ++ (st.observers.map (fun o => o.id))).map ResetEvent.memberReset
    ∧ (st.reset).2.2 = () := by
  have h := foldl_alDelete_all (st.inactiveRefs.map Prod.fst) st.inactiveRefs []
    (fun kv hkv => List.mem_map_of_mem Prod.fst hkv)
  refine ⟨?_, rfl, rfl, ?_, rfl⟩
  · show (List.foldl
        (fun (acc : List (String × InactiveRefCache) × List ResetEvent) key =>
          (alDelete acc.1 key, acc.2 ++ [ResetEvent.cacheDelete key]))
        (st.inactiveRefs, []) (st.inactiveRefs.map Prod.fst)).1 = []
    rw [h]
  · show (List.foldl
        (fun (acc : List (String × InactiveRefCache) × List ResetEvent) key =>
          (alDelete acc.1 key, acc.2 ++ [ResetEvent.cacheDelete key]))
        (st.inactiveRefs, []) (st.inactiveRefs.map Prod.fst)).2
      ++ (((alValues st.refs).map (fun r => r.id))
          ++ (st.observers.map (fun o => o.id))).map ResetEvent.memberReset = _
    rw [h]
    simp [List.map_map]

/-- C8: unsubscribing an id with no active provider is a silent no-op, and
`unsubscribe` for providers is idempotent. -/
theorem unsubscribe_unknown_noop_idempotent (st : ScopeState) (id : String) :
    (alGet st.refs id = none → st.unsubscribe id "provider" = st)
    ∧ (st.unsubscribe id "provider").unsubscribe id "provider"
        = st.unsubscribe id "provider" := by
  have hnoop : ∀ s : ScopeState, alGet s.refs id = none → s.unsubscribe id "provider" = s := by
    intro s hs
    unfold ScopeState.unsubscribe ScopeState.removeProvider
    rw [if_pos rfl, hs]
  refine ⟨hnoop st, ?_⟩
  apply hnoop
  unfold ScopeState.unsubscribe ScopeState.removeProvider
  rw [if_pos rfl]
  cases hg : alGet st.refs id with
  | none => exact hg
  | some p => cases hp : p.persist <;> simp [hp, alGet_alDelete_self]

/-- Witness for C8 at an id that is not registered. -/
theorem unsubscribe_unknown_noop_idempotent_witness :
    (stW.unsubscribe "zz" "provider" = stW)
    ∧ (stW.unsubscribe "zz" "provider").unsubscribe "zz" "provider"
        = stW.unsubscribe "zz" "provider" :=
  ⟨(unsubscribe_unknown_noop_idempotent stW "zz").1 rfl,
   (unsubscribe_unknown_noop_idempotent stW "zz").2⟩

theorem provider_ne_observer : ¬(("provider" : String) = "observer") := by decide

theorem restoreProviderState_miss (st : ScopeState) (p : Provider)
    (h : alGet st.inactiveRefs p.id = none) :
    st.restoreProviderState p = (st, p) := by
  unfold ScopeState.restoreProviderState
  rw [h]

theorem restoreProviderState_hit (st : ScopeState) (p : Provider) (s : InactiveRefCache)
    (h : alGet st.inactiveRefs p.id = some s) :
    st.restoreProviderState p
      = ({ st with inactiveRefs := alDelete st.inactiveRefs p.id },
         (p.setFlags s.flags).applyResult s) := by
  unfold ScopeState.restoreProviderState
  rw [h]
  rfl

/-- Reduction of `subscribe` on the provider branch with kind `'provider'`. -/
theorem subscribe_provider_eq (st : ScopeState) (p : Provider) :
    st.subscribe (.provider p) "provider"
      = (if p.persist then
          { (({ st with refs := alSet st.refs p.id p } : ScopeState).restoreProviderState p).1 with
            refs :=
              alSet
                (({ st with refs := alSet st.refs p.id p } :
                    ScopeState).restoreProviderState p).1.refs
                p.id
                (({ st with refs := alSet st.refs p.id p } :
                    ScopeState).restoreProviderState p).2 }
        else { st with refs := alSet st.refs p.id p }) := rfl

/-- C10: subscribing a persisting provider whose id has no cached snapshot
mutates only the `refs` entry for that id: the provider is stored unchanged
(no `setFlags` / `applyResult` replay happens), `inactiveRefs` and
`observers` stay as they were, and the other `refs` entries keep their
values. -/
theorem subscribe_no_cache_frame (st : ScopeState) (p : Provider)
    (hp : p.persist = true) (hmiss : alGet st.inactiveRefs p.id = none) :
    st.subscribe (.provider p) "provider" = { st with refs := alSet st.refs p.id p }
    ∧ ∀ k, k ≠ p.id →
        alGet (st.subscribe (.provider p) "provider").refs k = alGet st.refs k := by
  have hmain : st.subscribe (.provider p) "provider"
      = { st with refs := alSet st.refs p.id p } := by
    rw [subscribe_provider_eq]
    rw [restoreProviderState_miss { st with refs := alSet st.refs p.id p } p hmiss, if_pos hp]
    simp [alSet_alSet_same]
  refine ⟨hmain, fun k hk => ?_⟩
  rw [hmain]
  exact alGet_alSet_other st.refs p.id k p hk


/-- Witness for C10: a fresh persisting provider joins a scope that holds no
snapshot under its id. -/
theorem subscribe_no_cache_frame_witness :
    provW3.persist = true
    ∧ alGet stW.inactiveRefs provW3.id = none
    ∧ stW.subscribe (.provider provW3) "provider"
        = { stW with refs := alSet stW.refs provW3.id provW3 } :=
  ⟨rfl, rfl, (subscribe_no_cache_frame stW provW3 rfl rfl).1⟩


/-- Counterexample to C4 as stated: the scope `stC4` caches a snapshot for id
`a`, yet subscribing a member with that id and `persist = false` does NOT
replay the snapshot (the member keeps its own flags, which differ from the
cached ones) and does NOT delete the cache entry — restoration is guarded by
the incoming subscriber's `persist` flag, not unconditional. -/
theorem restore_not_unconditional_counterexample :
    alGet (stC4.subscribe (.provider provNoPersist) "provider").refs "a"
        = some provNoPersist
    ∧ provNoPersist.flags ≠ snapA.flags
    ∧ alGet (stC4.subscribe (.provider provNoPersist) "provider").inactiveRefs "a"
        = some snapA := by
  refine ⟨by decide, by decide, by decide⟩

theorem subscribe_provider_get_self (st : ScopeState) (p : Provider) :
    ∃ q, alGet (st.subscribe (.provider p) "provider").refs p.id = some q
      ∧ q.id = p.id ∧ q.persist = p.persist := by
  rw [subscribe_provider_eq]
  by_cases hp : p.persist = true
  · rw [if_pos hp]
    cases hg : alGet ({ st with refs := alSet st.refs p.id p } : ScopeState).inactiveRefs p.id with
    | none =>
        rw [restoreProviderState_miss _ p hg]
        exact ⟨p, alGet_alSet_self _ p.id p, rfl, rfl⟩
    | some s =>
        rw [restoreProviderState_hit _ p s hg]
        exact ⟨(p.setFlags s.flags).applyResult s,
          alGet_alSet_self _ p.id ((p.setFlags s.flags).applyResult s), rfl, rfl⟩
  · rw [if_neg hp]
    exact ⟨p, alGet_alSet_self st.refs p.id p, rfl, rfl⟩

theorem removeProvider_found_persist (st : ScopeState) (id : String) (q : Provider)
    (hq : alGet st.refs id = some q) (hpq : q.persist = true) :
    st.removeProvider id
      = { st with
          inactiveRefs := alSet st.inactiveRefs id ⟨id, q.flags, q.errors, q.failedRules⟩,
          refs := alDelete st.refs id } := by
  unfold ScopeState.removeProvider
  rw [hq]
  simp only [hpq, if_true]

theorem subscribe_provider_hit (st : ScopeState) (p : Provider) (s : InactiveRefCache)
    (hp : p.persist = true) (hs : alGet st.inactiveRefs p.id = some s) :
    st.subscribe (.provider p) "provider"
      = { st with
          refs := alSet (alSet st.refs p.id p) p.id ((p.setFlags s.flags).applyResult s),
          inactiveRefs := alDelete st.inactiveRefs p.id } := by
  rw [subscribe_provider_eq]
  have hs' : alGet ({ st with refs := alSet st.refs p.id p } : ScopeState).inactiveRefs p.id
      = some s := hs
  rw [restoreProviderState_hit _ p s hs', if_pos hp]

/-- C4 amended: when the departing member and the re-registering handle both
carry `persist = true`, the round trip restores the pre-removal snapshot —
register M, unsubscribe it, subscribe a same-id handle N: the stored handle's
flags/errors/failedRules equal the pre-removal state of the registered
member, and the cache entry for the id is gone.  (Restoration on `subscribe`
is guarded by the incoming member's `persist` flag.) -/
theorem persist_roundtrip (st : ScopeState) (M N : Provider)
    (hM : M.persist = true) (hN : N.persist = true) (hid : N.id = M.id) :
    ∃ pM, alGet ((st.subscribe (.provider M) "provider")).refs M.id = some pM
      ∧ (∃ q, alGet (((st.subscribe (.provider M) "provider").unsubscribe M.id
              "provider").subscribe (.provider N) "provider").refs M.id = some q
          ∧ q.flags = pM.flags ∧ q.errors = pM.errors ∧ q.failedRules = pM.failedRules)
      ∧ alGet (((st.subscribe (.provider M) "provider").unsubscribe M.id
            "provider").subscribe (.provider N) "provider").inactiveRefs M.id = none := by
  obtain ⟨pM, hpM, hpMid, hpMpersist⟩ := subscribe_provider_get_self st M
  have hunsub : (st.subscribe (.provider M) "provider").unsubscribe M.id "provider"
      = { st.subscribe (.provider M) "provider" with
          inactiveRefs :=
            alSet (st.subscribe (.provider M) "provider").inactiveRefs M.id
              ⟨M.id, pM.flags, pM.errors, pM.failedRules⟩,
          refs := alDelete (st.subscribe (.provider M) "provider").refs M.id } := by
    show ScopeState.removeProvider _ M.id = _
    exact removeProvider_found_persist _ M.id pM hpM (hpMpersist.trans hM)
  have hsnap : alGet ((st.subscribe (.provider M) "provider").unsubscribe M.id
        "provider").inactiveRefs N.id
      = some ⟨M.id, pM.flags, pM.errors, pM.failedRules⟩ := by
    rw [hunsub, hid]
    exact alGet_alSet_self _ M.id _
  have hsub2 := subscribe_provider_hit
    ((st.subscribe (.provider M) "provider").unsubscribe M.id "provider") N
    ⟨M.id, pM.flags, pM.errors, pM.failedRules⟩ hN hsnap
  refine ⟨pM, hpM, ?_, ?_⟩
  · refine ⟨(N.setFlags pM.flags).applyResult
        ⟨M.id, pM.flags, pM.errors, pM.failedRules⟩, ?_, rfl, rfl, rfl⟩
    rw [hsub2, ← hid]
    exact alGet_alSet_self _ N.id _
  · rw [hsub2, ← hid]
    exact alGet_alDelete_self _ N.id


/-- Witness for C4 (amended): a concrete persist round trip on an initially
empty scope. -/
theorem persist_roundtrip_witness :
    provM.persist = true ∧ provN.persist = true ∧ provN.id = provM.id
    ∧ (∃ pM, alGet ((emptyScope.subscribe (.provider provM) "provider")).refs provM.id
          = some pM
        ∧ (∃ q, alGet (((emptyScope.subscribe (.provider provM) "provider").unsubscribe
                provM.id "provider").subscribe (.provider provN) "provider").refs provM.id
              = some q
            ∧ q.flags = pM.flags ∧ q.errors = pM.errors ∧ q.failedRules = pM.failedRules)
        ∧ alGet (((emptyScope.subscribe (.provider provM) "provider").unsubscribe
              provM.id "provider").subscribe (.provider provN) "provider").inactiveRefs
            provM.id = none) :=
  ⟨rfl, rfl, rfl, persist_roundtrip emptyScope provM provN rfl rfl rfl⟩


/-- Counterexample to C5 as stated: registering a persisting member `a`,
unsubscribing it (which caches a snapshot), then registering a
`persist = false` member under the same id leaves id `a` both active and
cached — the partitions are not disjoint at this observation point, because
`subscribe` only consumes a cache entry when the incoming member persists. -/
theorem partitions_disjoint_counterexample :
    ¬ disjointPartitions (applyOps emptyScope opsC5) :=
  fun h => absurd (h "a" (by decide)) (by decide)


theorem subscribe_kind_not_observer (st : ScopeState) (s : Subscriber) (kind : String)
    (hk : ¬(kind = "observer")) :
    st.subscribe s kind = st.subscribe s "provider" := by
  unfold ScopeState.subscribe
  rw [if_neg hk, if_neg provider_ne_observer]

theorem removeProvider_found_nonpersist (st : ScopeState) (id : String) (q : Provider)
    (hq : alGet st.refs id = some q) (hpq : q.persist = false) :
    st.removeProvider id = { st with refs := alDelete st.refs id } := by
  unfold ScopeState.removeProvider
  rw [hq]
  simp only [hpq, Bool.false_eq_true, if_false]

theorem removeProvider_preserves_disjoint (st : ScopeState) (id : String)
    (hst : disjointPartitions st) :
    disjointPartitions (st.removeProvider id) := by
  cases hg : alGet st.refs id with
  | none =>
      have hnone : st.removeProvider id = st := by
        unfold ScopeState.removeProvider
        rw [hg]
      rw [hnone]
      exact hst
  | some q =>
      cases hq : q.persist with
      | true =>
          rw [removeProvider_found_persist st id q hg hq]
          intro k h1
          have h1' : (alGet (alDelete st.refs id) k).isSome = true := h1
          show (alGet (alSet st.inactiveRefs id
            ⟨id, q.flags, q.errors, q.failedRules⟩) k).isNone = true
          by_cases hk : k = id
          · subst hk
            rw [alGet_alDelete_self] at h1'
            cases h1'
          · rw [alGet_alSet_other _ id k _ hk]
            rw [alGet_alDelete_other _ id k hk] at h1'
            exact hst k h1'
      | false =>
          rw [removeProvider_found_nonpersist st id q hg hq]
          intro k h1
          have h1' : (alGet (alDelete st.refs id) k).isSome = true := h1
          show (alGet st.inactiveRefs k).isNone = true
          by_cases hk : k = id
          · subst hk
            rw [alGet_alDelete_self] at h1'
            cases h1'
          · rw [alGet_alDelete_other _ id k hk] at h1'
            exact hst k h1'

theorem subscribe_provider_preserves_disjoint (st : ScopeState) (p : Provider)
    (hp : p.persist = true) (hst : disjointPartitions st) :
    disjointPartitions (st.subscribe (.provider p) "provider") := by
  cases hg : alGet st.inactiveRefs p.id with
  | none =>
      have hmain : st.subscribe (.provider p) "provider"
          = { st with refs := alSet (alSet st.refs p.id p) p.id p } := by
        have hg' : alGet ({ st with refs := alSet st.refs p.id p } :
            ScopeState).inactiveRefs p.id = none := hg
        rw [subscribe_provider_eq, if_pos hp,
          restoreProviderState_miss { st with refs := alSet st.refs p.id p } p hg']
      rw [hmain]
      intro k h1
      have h1' : (alGet (alSet (alSet st.refs p.id p) p.id p) k).isSome = true := h1
      show (alGet st.inactiveRefs k).isNone = true
      by_cases hk : k = p.id
      · subst hk
        rw [hg]
        rfl
      · rw [alGet_alSet_other _ p.id k _ hk, alGet_alSet_other _ p.id k _ hk] at h1'
        exact hst k h1'
  | some s =>
      rw [subscribe_provider_hit st p s hp hg]
      intro k h1
      have h1' : (alGet (alSet (alSet st.refs p.id p) p.id
          ((p.setFlags s.flags).applyResult s)) k).isSome = true := h1
      show (alGet (alDelete st.inactiveRefs p.id) k).isNone = true
      by_cases hk : k = p.id
      · subst hk
        rw [alGet_alDelete_self]
        rfl
      · rw [alGet_alDelete_other _ p.id k hk]
        rw [alGet_alSet_other _ p.id k _ hk, alGet_alSet_other _ p.id k _ hk] at h1'
        exact hst k h1'

theorem applyOp_preserves_disjoint (st : ScopeState) (op : RegOp)
    (hst : disjointPartitions st) (hop : subscribedPersist op) :
    disjointPartitions (applyOp st op) := by
  cases op with
  | sub s kind =>
      cases s with
      | observer o =>
          show disjointPartitions (st.subscribe (.observer o) kind)
          by_cases hk : kind = "observer"
          · subst hk
            exact fun k h1 => hst k h1
          · rw [subscribe_kind_not_observer st _ kind hk]
            exact fun k h1 => hst k h1
      | provider p =>
          have hp : p.persist = true := hop
          show disjointPartitions (st.subscribe (.provider p) kind)
          by_cases hk : kind = "observer"
          · subst hk
            exact fun k h1 => hst k h1
          · rw [subscribe_kind_not_observer st _ kind hk]
            exact subscribe_provider_preserves_disjoint st p hp hst
  | unsub id kind =>
      show disjointPartitions (st.unsubscribe id kind)
      by_cases hk : kind = "provider"
      · subst hk
        have hred : st.unsubscribe id "provider" = st.removeProvider id := by
          unfold ScopeState.unsubscribe
          rw [if_pos rfl]
        rw [hred]
        exact removeProvider_preserves_disjoint st id hst
      · unfold ScopeState.unsubscribe
        rw [if_neg hk]
        cases st.observers.findIdx? (fun o => o.id = id) with
        | none => exact hst
        | some idx => exact fun k h1 => hst k h1

/-- C5 amended: for every sequence of `subscribe` / `unsubscribe` calls in
which every subscribed provider carries `persist = true`, starting from a
state with disjoint partitions, `refs` (active members) and `inactiveRefs`
(cached snapshots) stay disjoint at every observation point.  (C5 as stated
fails: re-registering a cached id with a non-persisting member leaves the id
in both partitions, see the counterexample.) -/
theorem partitions_disjoint_of_persist (ops : List RegOp) (st : ScopeState)
    (hst : disjointPartitions st)
    (hops : ∀ op ∈ ops, subscribedPersist op) :
    disjointPartitions (applyOps st ops) := by
  induction ops generalizing st with
  | nil => exact hst
  | cons op rest ih =>
      show disjointPartitions (applyOps (applyOp st op) rest)
      exact ih (applyOp st op)
        (applyOp_preserves_disjoint st op hst (hops op (List.mem_cons_self _ _)))
        (fun o ho => hops o (List.mem_cons_of_mem _ ho))


/-- Witness for C5 (amended) on a concrete persist-only call sequence. -/
theorem partitions_disjoint_of_persist_witness :
    disjointPartitions (applyOps emptyScope opsW5) := by
  have hst : disjointPartitions emptyScope := by
    intro k h1
    have h1' : (alGet ([] : List (String × Provider)) k).isSome = true := h1
    cases h1'
  have hops : ∀ op ∈ opsW5, subscribedPersist op := by
    intro op hop
    rcases List.mem_cons.mp hop with rfl | hop
    · exact rfl
    rcases List.mem_cons.mp hop with rfl | hop
    · exact trivial
    rcases List.mem_cons.mp hop with rfl | hop
    · exact rfl
    cases hop
  exact partitions_disjoint_of_persist opsW5 emptyScope hst hops

/-! ## Default id generation: counterexample and amended uniqueness -/

/-- Counterexample to C9 as stated: the id generated for counter value 0 is
`obs_0`; it does not have the form `scope_<counter>` (its first characters
are `obs_`, not `scope_`). -/
theorem defaultVid_not_scope_counterexample :
    defaultVid 0 = "obs_0" ∧ (defaultVid 0).data.take 6 ≠ "scope_".data := by
  constructor
  · decide
  · decide

theorem unDigits_digitsGo (fuel : Nat) : ∀ n : Nat, n ≤ fuel →
    unDigits (digitsGo fuel n) = n := by
  induction fuel with
  | zero =>
      intro n hn
      have hz : n = 0 := Nat.le_zero.mp hn
      subst hz
      rfl
  | succ fuel ih =>
      intro n hn
      have hstep : digitsGo (fuel + 1) n
          = if n < 10 then [n] else n % 10 :: digitsGo fuel (n / 10) := rfl
      rw [hstep]
      by_cases h10 : n < 10
      · rw [if_pos h10]
        simp [unDigits]
      · rw [if_neg h10]
        have hd : n / 10 < n := Nat.div_lt_self (by omega) (by omega)
        have hfuel : n / 10 ≤ fuel := by omega
        show n % 10 + 10 * unDigits (digitsGo fuel (n / 10)) = n
        rw [ih (n / 10) hfuel]
        omega

theorem natDigits_roundtrip (n : Nat) : unDigits (natDigits n) = n :=
  unDigits_digitsGo n n (Nat.le_refl n)

theorem natDigits_inj {m n : Nat} (h : natDigits m = natDigits n) : m = n := by
  have hh := congrArg unDigits h
  rwa [natDigits_roundtrip, natDigits_roundtrip] at hh

theorem digitsGo_bound (fuel : Nat) : ∀ n : Nat, ∀ d ∈ digitsGo fuel n, d < 10 := by
  induction fuel with
  | zero =>
      intro n d hd
      have : d = n % 10 := by simpa [digitsGo] using hd
      subst this
      exact Nat.mod_lt _ (by omega)
  | succ fuel ih =>
      intro n d hd
      have hstep : digitsGo (fuel + 1) n
          = if n < 10 then [n] else n % 10 :: digitsGo fuel (n / 10) := rfl
      rw [hstep] at hd
      by_cases h10 : n < 10
      · rw [if_pos h10] at hd
        have : d = n := by simpa using hd
        omega
      · rw [if_neg h10] at hd
        rcases List.mem_cons.mp hd with rfl | hd
        · exact Nat.mod_lt _ (by omega)
        · exact ih (n / 10) d hd

theorem digChar_inj_on :
    ∀ d₁ < 10, ∀ d₂ < 10, digChar d₁ = digChar d₂ → d₁ = d₂ := by decide

theorem map_digChar_inj : ∀ ds es : List Nat, (∀ d ∈ ds, d < 10) → (∀ e ∈ es, e < 10) →
    ds.map digChar = es.map digChar → ds = es := by
  intro ds
  induction ds with
  | nil =>
      intro es _ _ h
      cases es with
      | nil => rfl
      | cons e es => cases h
  | cons d ds ih =>
      intro es hds hes h
      cases es with
      | nil => cases h
      | cons e es =>
          simp only [List.map_cons, List.cons.injEq] at h
          have hde : d = e :=
            digChar_inj_on d (hds d (List.mem_cons_self _ _))
              e (hes e (List.mem_cons_self _ _)) h.1
          subst hde
          rw [ih es (fun x hx => hds x (List.mem_cons_of_mem _ hx))
            (fun x hx => hes x (List.mem_cons_of_mem _ hx)) h.2]

theorem defaultVid_inj {m n : Nat} (h : defaultVid m = defaultVid n) : m = n := by
  have hdata : (defaultVid m).data = (defaultVid n).data := congrArg String.data h
  rw [defaultVid, defaultVid, String.data_append, String.data_append] at hdata
  have hrev : ((natDigits m).reverse.map digChar)
      = ((natDigits n).reverse.map digChar) :=
    List.append_cancel_left hdata
  have hds : (natDigits m).reverse = (natDigits n).reverse :=
    map_digChar_inj _ _
      (fun d hd => digitsGo_bound m m d (List.mem_reverse.mp hd))
      (fun e he => digitsGo_bound n n e (List.mem_reverse.mp he)) hrev
  exact natDigits_inj (List.reverse_inj.mp hds)

/-- C9 amended: the generated default id for counter value `c` is
`` `obs_${c}` `` — it carries the `obs_` prefix (not `scope_`), and distinct
counter values give distinct ids, so the process-wide incrementing counter
makes every auto-generated id unique per process. -/
theorem defaultVid_obs_and_unique (m n : Nat) :
    (defaultVid n).data.take 4 = "obs_".data
    ∧ (defaultVid m = defaultVid n → m = n) := by
  constructor
  · rw [defaultVid, String.data_append]
    exact List.take_left' rfl
  · exact defaultVid_inj

/-- Witness for C9 (amended) at counter value 7. -/
theorem defaultVid_obs_and_unique_witness :
    (defaultVid 7).data.take 4 = "obs_".data ∧ (7 : Nat) = 7 :=
  ⟨(defaultVid_obs_and_unique 7 7).1, (defaultVid_obs_and_unique 7 7).2 rfl⟩

end VeeObserver
